import Mathlib

/-!
Shallow embedding of the transcript-analysis service
(`src/app.py` and `src/utils/groq_utils.py`).

The embedding models, faithfully to the Python source:
  * `json.loads` as a fuel-based recursive-descent JSON reader (`jsonLoadsL`),
  * Python string operations used by the code (`pyStrip`, slicing, lower-casing,
    substring search),
  * the two regex searches used by the rescue cascade,
  * the response-rescue cascades of `app.py.analyze_with_groq` and
    `groq_utils.GroqTranscriptAnalyzer._parse_response` /
    `groq_utils.analyze_with_groq`,
  * the retry loop of `GroqTranscriptAnalyzer._make_api_request`,
  * the `/analyze` route handler and `GroqTranscriptAnalyzer.analyze`,
    with the network modelled as an oracle giving each attempt's outcome.
-/

namespace TranscriptService

/-- Whitespace characters removed by Python `str.strip()` (ASCII range). -/
def isPySpace (c : Char) : Bool :=
  c = ' ' || c = '\t' || c = '\n' || c = '\x0d' || c = '\x0b' || c = '\x0c'

/-- Model of Python `str.strip()` from the left. -/
def pyStripLeft (l : List Char) : List Char := l.dropWhile isPySpace

/-- Model of Python `str.strip()` (both ends). -/
def pyStrip (l : List Char) : List Char :=
  ((l.dropWhile isPySpace).reverse.dropWhile isPySpace).reverse

/-- Model of the Python slice `s[a:-b]` (drop `a` from the front, `b` from the
back, empty when they overlap). -/
def pySliceMid (l : List Char) (a b : Nat) : List Char :=
  (l.drop a).take (l.length - b - a)

/-- Model of Python `str.startswith`. -/
def pyStartsWith (l pre : List Char) : Bool := l.take pre.length = pre

/-- Model of Python ASCII `str.lower()`. -/
def pyLower (s : String) : String := String.mk (s.toList.map Char.toLower)

/-- Model of Python `sub in s` for strings (substring containment). -/
def containsSub (l sub : List Char) : Bool :=
  if sub.isPrefixOf l then true
  else
    match l with
    | [] => false
    | _ :: t => containsSub t sub

/-- Rest of `l` after the first occurrence of `sub`, if any (used to model
sequential regex matching of two literals). -/
def dropAfterSub (l sub : List Char) : Option (List Char) :=
  if sub.isPrefixOf l then some (l.drop sub.length)
  else
    match l with
    | [] => none
    | _ :: t => dropAfterSub t sub

/-- JSON values as produced by Python `json.loads`.  Numbers keep their source
lexeme (the claims never compare numerically distinct lexemes). -/
inductive Json where
  | null : Json
  | bool (b : Bool) : Json
  | num (lexeme : String) : Json
  | str (s : String) : Json
  | arr (elems : List Json) : Json
  | obj (fields : List (String × Json)) : Json

/-- Whitespace skipped by the JSON grammar (as in Python's `json` module). -/
def isJsonWs (c : Char) : Bool := c = ' ' || c = '\t' || c = '\n' || c = '\x0d'

/-- Skip JSON whitespace. -/
def skipWs (l : List Char) : List Char := l.dropWhile isJsonWs

/-- Hex digit value. -/
def hexVal (c : Char) : Option Nat :=
  if '0' ≤ c ∧ c ≤ '9' then some (c.toNat - '0'.toNat)
  else if 'a' ≤ c ∧ c ≤ 'f' then some (c.toNat - 'a'.toNat + 10)
  else if 'A' ≤ c ∧ c ≤ 'F' then some (c.toNat - 'A'.toNat + 10)
  else none

/-- Body of a JSON string literal (the opening quote already consumed),
with the escapes accepted by Python's strict `json.loads`.  Unescaped control
characters are rejected as in strict mode. -/
def parseStrBody (acc : List Char) : List Char → Option (String × List Char)
  | [] => none
  | '"' :: rest => some (String.mk acc.reverse, rest)
  | '\\' :: 'u' :: a :: b :: c :: d :: rest =>
    match hexVal a, hexVal b, hexVal c, hexVal d with
    | some x, some y, some z, some w =>
      let n := ((x * 16 + y) * 16 + z) * 16 + w
      if h : n.isValidChar then parseStrBody (Char.ofNatAux n h :: acc) rest
      else none
    | _, _, _, _ => none
  | '\\' :: e :: rest =>
    if e = '"' then parseStrBody ('"' :: acc) rest
    else if e = '\\' then parseStrBody ('\\' :: acc) rest
    else if e = '/' then parseStrBody ('/' :: acc) rest
    else if e = 'b' then parseStrBody ('\x08' :: acc) rest
    else if e = 'f' then parseStrBody ('\x0c' :: acc) rest
    else if e = 'n' then parseStrBody ('\n' :: acc) rest
    else if e = 'r' then parseStrBody ('\x0d' :: acc) rest
    else if e = 't' then parseStrBody ('\t' :: acc) rest
    else none
  | c :: rest => if c.toNat < 32 then none else parseStrBody (c :: acc) rest

/-- Digit run at the front of the input. -/
def digitSpan (l : List Char) : List Char × List Char := l.span Char.isDigit

/-- Integer part of a JSON number: `0` alone or a nonzero digit followed by
digits (leading zeros rejected, as in the JSON grammar). -/
def parseIntPart (l : List Char) : Option (List Char × List Char) :=
  match l with
  | '0' :: rest => some (['0'], rest)
  | c :: _ =>
    if c.isDigit then
      let (ds, rest) := digitSpan l
      some (ds, rest)
    else none
  | [] => none

/-- Optional fraction part `.digits`. -/
def parseFracPart (l : List Char) : Option (List Char × List Char) :=
  match l with
  | '.' :: rest =>
    match digitSpan rest with
    | ([], _) => none
    | (ds, rest2) => some ('.' :: ds, rest2)
  | _ => some ([], l)

/-- Optional exponent part `[eE][+-]?digits`. -/
def parseExpPart (l : List Char) : Option (List Char × List Char) :=
  match l with
  | e :: rest =>
    if e = 'e' ∨ e = 'E' then
      let (sgn, rest2) :=
        match rest with
        | '+' :: r => (['+'], r)
        | '-' :: r => (['-'], r)
        | _ => ([], rest)
      match digitSpan rest2 with
      | ([], _) => none
      | (ds, rest3) => some (e :: (sgn ++ ds), rest3)
    else some ([], l)
  | [] => some ([], l)

/-- JSON number at the front of the input, returning its lexeme. -/
def parseNum (l : List Char) : Option (Json × List Char) :=
  let (sgn, l1) :=
    match l with
    | '-' :: r => (['-'], r)
    | _ => ([], l)
  match parseIntPart l1 with
  | none => none
  | some (ip, l2) =>
    match parseFracPart l2 with
    | none => none
    | some (fp, l3) =>
      match parseExpPart l3 with
      | none => none
      | some (ep, l4) => some (Json.num (String.mk (sgn ++ ip ++ fp ++ ep)), l4)

/-- Dictionary insertion with Python `dict` semantics: an existing key keeps
its position and gets the new value, a new key is appended. -/
def objInsert : List (String × Json) → String → Json → List (String × Json)
  | [], k, v => [(k, v)]
  | (k', v') :: t, k, v =>
    if k' = k then (k, v) :: t else (k', v') :: objInsert t k v

/-- Lookup in a parsed object (keys are unique by construction). -/
def objGet : List (String × Json) → String → Option Json
  | [], _ => none
  | (k', v') :: t, k => if k' = k then some v' else objGet t k

/-- Parsing modes of the JSON reader: a single value, the remaining elements
of an array, or the remaining members of an object. -/
inductive PMode where
  | value : PMode
  | elems (acc : List Json) : PMode
  | members (acc : List (String × Json)) : PMode

/-- Fuel-based recursive-descent JSON reader modelling Python `json.loads`
(one value, returning the unconsumed remainder). -/
def parseCore : Nat → PMode → List Char → Option (Json × List Char)
  | 0, _, _ => none
  | fuel + 1, PMode.value, input =>
    match skipWs input with
    | [] => none
    | c :: rest =>
      if c = '\x7b' then
        match skipWs rest with
        | '\x7d' :: rest2 => some (Json.obj [], rest2)
        | _ => parseCore fuel (PMode.members []) rest
      else if c = '[' then
        match skipWs rest with
        | ']' :: rest2 => some (Json.arr [], rest2)
        | _ => parseCore fuel (PMode.elems []) rest
      else if c = '"' then
        match parseStrBody [] rest with
        | some (s, rest2) => some (Json.str s, rest2)
        | none => none
      else if c = 't' then
        if rest.take 3 = ['r', 'u', 'e'] then some (Json.bool true, rest.drop 3)
        else none
      else if c = 'f' then
        if rest.take 4 = ['a', 'l', 's', 'e'] then some (Json.bool false, rest.drop 4)
        else none
      else if c = 'n' then
        if rest.take 3 = ['u', 'l', 'l'] then some (Json.null, rest.drop 3)
        else none
      else parseNum (c :: rest)
  | fuel + 1, PMode.elems acc, input =>
    match parseCore fuel PMode.value input with
    | none => none
    | some (v, rest) =>
      match skipWs rest with
      | ',' :: rest2 => parseCore fuel (PMode.elems (acc ++ [v])) rest2
      | ']' :: rest2 => some (Json.arr (acc ++ [v]), rest2)
      | _ => none
  | fuel + 1, PMode.members acc, input =>
    match skipWs input with
    | '"' :: rest =>
      match parseStrBody [] rest with
      | none => none
      | some (k, rest2) =>
        match skipWs rest2 with
        | ':' :: rest3 =>
          match parseCore fuel PMode.value rest3 with
          | none => none
          | some (v, rest4) =>
            match skipWs rest4 with
            | ',' :: rest5 => parseCore fuel (PMode.members (objInsert acc k v)) rest5
            | '\x7d' :: rest5 => some (Json.obj (objInsert acc k v), rest5)
            | _ => none
        | _ => none
    | _ => none

/-- Model of `json.loads` on a character list: parse one value and require
only whitespace to remain. -/
def jsonLoadsL (l : List Char) : Option Json :=
  match parseCore (2 * l.length + 8) PMode.value l with
  | some (v, rest) => if skipWs rest = [] then some v else none
  | none => none

/-- Model of `json.loads` on a string. -/
def jsonLoads (s : String) : Option Json := jsonLoadsL s.toList

/-- Zero test on a number lexeme (all mantissa digits `0`), for Python
falsiness of parsed numbers. -/
def numLexIsZero (lex : String) : Bool :=
  ((lex.toList.takeWhile (fun c => c ≠ 'e' ∧ c ≠ 'E')).filter Char.isDigit).all
    (fun c => c = '0')

/-- Python falsiness of a value produced by `json.loads`. -/
def Json.falsy : Json → Bool
  | .null => true
  | .bool b => !b
  | .num lex => numLexIsZero lex
  | .str s => s.isEmpty
  | .arr l => l.isEmpty
  | .obj l => l.isEmpty

/-- Falsiness of an optional value (`None` is falsy). -/
def pyFalsyOpt : Option Json → Bool
  | none => true
  | some v => v.falsy

/-- Python exceptions raised by the modelled fragments. -/
inductive PyErr where
  | valueError (msg : String)
  | typeError (msg : String)
  | attributeError (msg : String)
  | keyError (msg : String)

/-- Model of Python `str(e)` on the modelled exceptions (for `KeyError` the
stored message is already the quoted key). -/
def PyErr.msg : PyErr → String
  | .valueError m => m
  | .typeError m => m
  | .attributeError m => m
  | .keyError m => m

/-- Python type name of a parsed JSON value (used in error messages). -/
def pyTypeName : Json → String
  | .null => "NoneType"
  | .bool _ => "bool"
  | .num lex =>
    if lex.toList.contains '.' || lex.toList.contains 'e' || lex.toList.contains 'E'
    then "float" else "int"
  | .str _ => "str"
  | .arr _ => "list"
  | .obj _ => "dict"

/-- Model of Python `needle in v` for a string needle: key containment for
dicts, element equality for lists, substring for strings, `TypeError`
otherwise. -/
def pyIn (needle : String) (v : Json) : Except PyErr Bool :=
  match v with
  | .obj fields => .ok (objGet fields needle).isSome
  | .arr elems =>
    .ok (elems.any (fun e => match e with | .str t => t = needle | _ => false))
  | .str s => .ok (containsSub s.toList needle.toList)
  | other =>
    .error (.typeError ("argument of type '" ++ pyTypeName other ++ "' is not iterable"))

/-- Model of Python `v[k]` for a string key. -/
def pyGetItemStr (v : Json) (k : String) : Except PyErr Json :=
  match v with
  | .obj fields =>
    match objGet fields k with
    | some x => .ok x
    | none => .error (.keyError ("'" ++ k ++ "'"))
  | .arr _ => .error (.typeError "list indices must be integers or slices, not str")
  | .str _ => .error (.typeError "string indices must be integers")
  | other =>
    .error (.typeError ("'" ++ pyTypeName other ++ "' object is not subscriptable"))

/-- Model of Python `v[k] = x` for a string key on a dict (the non-dict case
never arises where it is used: a preceding `v[k]` read has succeeded). -/
def pySetItemStr (v : Json) (k : String) (x : Json) : Json :=
  match v with
  | .obj fields => .obj (objInsert fields k x)
  | other => other

/-- Quoting of Python `repr` for strings: single quotes, double quotes when
the string itself holds a single quote (escaping inside is not modelled; the
strings reaching it in the claims hold neither quote kind). -/
def pyReprStrQ (s : String) : String :=
  if s.toList.contains '\'' then "\"" ++ s ++ "\"" else "'" ++ s ++ "'"

/-- Model of Python `repr` on values produced by `json.loads` (float
re-formatting is approximated by the lexeme). -/
def pyRepr : Json → String
  | Json.null => "None"
  | Json.bool true => "True"
  | Json.bool false => "False"
  | Json.num lex => lex
  | Json.str s => pyReprStrQ s
  | Json.arr l =>
    "[" ++ String.intercalate ", " (l.attach.map (fun x => pyRepr x.1)) ++ "]"
  | Json.obj l =>
    "\x7b" ++
      String.intercalate ", "
        (l.attach.map (fun kv => pyReprStrQ kv.1.1 ++ ": " ++ pyRepr kv.1.2)) ++
      "\x7d"
termination_by v => sizeOf v
decreasing_by
  all_goals simp_wf
  · have := List.sizeOf_lt_of_mem x.2
    omega
  · have h1 := List.sizeOf_lt_of_mem kv.2
    have h2 : sizeOf kv.1.2 < sizeOf kv.1 := by
      obtain ⟨⟨a, b⟩, hm⟩ := kv
      simp
    omega

/-- Model of Python `str()` on parsed JSON values (as used by f-strings):
a top-level string prints bare, containers print as `repr`. -/
def pyStr : Json → String
  | Json.str s => s
  | v => pyRepr v

/-- The literal `"summary"` (with quotes) searched by the narrow regex. -/
def summaryLit : List Char := "\"summary\"".toList

/-- The literal `"sentiment"` (with quotes) searched by the narrow regex. -/
def sentimentLit : List Char := "\"sentiment\"".toList

/-- Does a brace-free segment contain `"summary"` followed by `"sentiment"`
(the interior of the narrow regex of `app.py`, line 90)? -/
def narrowSegOk (seg : List Char) : Bool :=
  match dropAfterSub seg summaryLit with
  | some rest => containsSub rest sentimentLit
  | none => false

/-- Match of the narrow regex starting at an opening brace whose following
text is `l`: the run up to the first closing brace must contain `"summary"`
then `"sentiment"`, and a closing brace must follow the run. -/
def narrowAt (l : List Char) : Option (List Char) :=
  match l.span (fun c => c ≠ '\x7d') with
  | (seg, '\x7d' :: _) =>
    if narrowSegOk seg then some ('\x7b' :: (seg ++ ['\x7d'])) else none
  | _ => none

/-- Model of `re.search` for the narrow pattern of `app.py` (line 90):
leftmost brace-delimited run containing a `summary` key then a `sentiment`
key, with no closing brace inside the run. -/
def findNarrow : List Char → Option (List Char)
  | [] => none
  | c :: t =>
    if c = '\x7b' then
      match narrowAt t with
      | some m => some m
      | none => findNarrow t
    else findNarrow t

/-- Model of `re.search` for the lazy pattern of `app.py` (line 92, with
`re.DOTALL`): from the first opening brace to the first closing brace after
it. -/
def findBroadApp (l : List Char) : Option (List Char) :=
  match l.dropWhile (fun c => c ≠ '\x7b') with
  | '\x7b' :: t =>
    match t.span (fun c => c ≠ '\x7d') with
    | (seg, '\x7d' :: _) => some ('\x7b' :: (seg ++ ['\x7d']))
    | _ => none
  | _ => none

/-- Model of `re.search` for the greedy pattern of `groq_utils.py` (lines 148
and 263, with `re.DOTALL`): from the first opening brace to the last closing
brace of the text. -/
def findBroadGq (l : List Char) : Option (List Char) :=
  match l.dropWhile (fun c => c ≠ '\x7b') with
  | '\x7b' :: t =>
    match t.reverse.dropWhile (fun c => c ≠ '\x7d') with
    | [] => none
    | keep => some ('\x7b' :: keep.reverse)
  | _ => none

/-- A triple backtick, the code-fence marker tested by `startswith`. -/
def fenceMarker : List Char := ['\x60', '\x60', '\x60']

/-- The cleaned content of method 2 of `app.py.analyze_with_groq` (lines
76-80): the second branch repeats the first branch's condition and is dead,
exactly as in the source. -/
def appMethod2Clean (content : List Char) : List Char :=
  if pyStartsWith content fenceMarker then pyStrip (pySliceMid content 7 3)
  else if pyStartsWith content fenceMarker then pyStrip (pySliceMid content 3 3)
  else content

/-- Rescue state after method 1 of `app.py.analyze_with_groq` (direct
parse, lines 66-71). -/
def appAfterDirect (content : List Char) : Option Json := jsonLoadsL content

/-- Rescue state after method 2 (markdown removal, lines 73-85); the method
runs only when the state so far is Python-falsy, and a parse failure keeps
the previous state. -/
def appAfterFence (content : List Char) : Option Json :=
  let r1 := appAfterDirect content
  if pyFalsyOpt r1 then
    match jsonLoadsL (appMethod2Clean content) with
    | some v => some v
    | none => r1
  else r1

/-- The extraction regex of method 3 (lines 90-92): the narrow pattern first,
the lazy brace pattern when it finds nothing. -/
def appExtract (content : List Char) : Option (List Char) :=
  match findNarrow content with
  | some m => some m
  | none => findBroadApp content

/-- Rescue state after method 3 (regex extraction, lines 87-99). -/
def appAfterExtract (content : List Char) : Option Json :=
  let r2 := appAfterFence content
  if pyFalsyOpt r2 then
    match appExtract content with
    | some m =>
      match jsonLoadsL m with
      | some v => some v
      | none => r2
    | none => r2
  else r2

/-- The rescued value of `app.py.analyze_with_groq`, `None` when the final
state is Python-falsy (the `if not result` test of line 101). -/
def appRescued (content : List Char) : Option Json :=
  let r3 := appAfterExtract content
  if pyFalsyOpt r3 then none else r3

/-- The exact sentiment values accepted by both validators. -/
def validSentiments : List String := ["positive", "negative", "neutral"]

/-- Validation step of `app.py.analyze_with_groq` (lines 104-117): required
keys, then lower-cased whitelist with coercion to `neutral`; the returned
Bool records whether the invalid-sentiment warning was printed.  Exceptions
reach the outer handler of line 119 (`Unexpected error`). -/
def appValidate (r : Json) : Except String (Json × Bool) :=
  match pyIn "summary" r with
  | .error e => .error ("Unexpected error: " ++ e.msg)
  | .ok hasSum =>
    if !hasSum then .error ("Missing required fields in response: " ++ pyStr r)
    else
      match pyIn "sentiment" r with
      | .error e => .error ("Unexpected error: " ++ e.msg)
      | .ok hasSen =>
        if !hasSen then .error ("Missing required fields in response: " ++ pyStr r)
        else
          match pyGetItemStr r "sentiment" with
          | .error e => .error ("Unexpected error: " ++ e.msg)
          | .ok sv =>
            match sv with
            | .str s =>
              let warned := !(validSentiments.contains (pyLower s))
              let final := if warned then "neutral" else pyLower s
              .ok (pySetItemStr r "sentiment" (Json.str final), warned)
            | other =>
              .error ("Unexpected error: '" ++ pyTypeName other ++
                "' object has no attribute 'lower'")

/-- The parse-and-validate stage of `app.py.analyze_with_groq` (lines
60-117), applied to the raw model reply (line 60 strips it first). -/
def appParse (reply : String) : Except String (Json × Bool) :=
  match appRescued (pyStrip reply.toList) with
  | none =>
    .error ("Could not parse JSON from response: " ++ String.mk (pyStrip reply.toList))
  | some r => appValidate r

/-- Fence removal of `GroqTranscriptAnalyzer._parse_response` (lines 137-140);
the second branch repeats the first branch's condition and is dead, exactly as
in the source. -/
def gqFenceClean (content0 : List Char) : List Char :=
  if pyStartsWith content0 fenceMarker then pyStrip (pySliceMid content0 7 3)
  else if pyStartsWith content0 fenceMarker then pyStrip (pySliceMid content0 3 3)
  else content0

/-- The rescued value of `_parse_response` (lines 142-154): direct parse, then
the greedy brace regex.  Both failure exits raise the same
`ValueError("Failed to parse JSON response from Groq")` (lines 154 and
169-172), so the two are collapsed into `none`. -/
def gqRescued (content : List Char) : Option Json :=
  match jsonLoadsL content with
  | some v => some v
  | none =>
    match findBroadGq content with
    | some m => jsonLoadsL m
    | none => none

/-- Validation of `_parse_response` (lines 156-165): required-field loop, then
the case-sensitive sentiment whitelist with coercion to `neutral`; the Bool
records whether the invalid-sentiment warning was logged. -/
def gqValidate (r : Json) : Except PyErr (Json × Bool) :=
  match pyIn "summary" r with
  | .error e => .error e
  | .ok hasSum =>
    if !hasSum then .error (.valueError "Missing required field: summary")
    else
      match pyIn "sentiment" r with
      | .error e => .error e
      | .ok hasSen =>
        if !hasSen then .error (.valueError "Missing required field: sentiment")
        else
          match pyGetItemStr r "sentiment" with
          | .error e => .error e
          | .ok sv =>
            let inSet :=
              match sv with
              | .str s => validSentiments.contains s
              | _ => false
            if inSet then .ok (r, false)
            else .ok (pySetItemStr r "sentiment" (Json.str "neutral"), true)

/-- Model of `_parse_response` on an already extracted and stripped content string
(the fence removal, rescue and validation of lines 136-165). -/
def gqParseChars (content0 : List Char) : Except PyErr (Json × Bool) :=
  match gqRescued (gqFenceClean content0) with
  | none => .error (.valueError "Failed to parse JSON response from Groq")
  | some r => gqValidate r

/-- Model of `_parse_response` on a raw reply string (line 134 strips it first). -/
def gqParseContent (reply : String) : Except PyErr (Json × Bool) :=
  gqParseChars (pyStrip reply.toList)

/-- Model of `v[0]`. -/
def pyGetIndex0 (v : Json) : Except PyErr Json :=
  match v with
  | .arr [] => .error (.typeError "list index out of range")
  | .arr (x :: _) => .ok x
  | .obj _ => .error (.keyError "0")
  | other =>
    .error (.typeError ("'" ++ pyTypeName other ++ "' object is not subscriptable"))

/-- Extraction of `response_data["choices"][0]["message"]["content"].strip()`
(line 134 of `groq_utils.py`); any exception propagates past the inner
handler, which only catches JSON decode errors. -/
def gqExtractContent (respData : Json) : Except PyErr (List Char) := do
  let choices ← pyGetItemStr respData "choices"
  let first ← pyGetIndex0 choices
  let message ← pyGetItemStr first "message"
  let content ← pyGetItemStr message "content"
  match content with
  | .str s => pure (pyStrip s.toList)
  | other =>
    throw (.attributeError ("'" ++ pyTypeName other ++ "' object has no attribute 'strip'"))

/-- Model of `GroqTranscriptAnalyzer._parse_response` on the whole response object
(lines 131-172). -/
def gqParseResponse (respData : Json) : Except PyErr (Json × Bool) :=
  match gqExtractContent respData with
  | .error e => .error e
  | .ok content0 => gqParseChars content0

/-- Outcomes of the parse portion of the module-level
`groq_utils.analyze_with_groq` (lines 257-271).  `errNoParse` is the fixed
message `Failed to parse JSON response`, `errMissing` the fixed message
`Missing required fields in Groq response`; `errDecode` and `errOther` are
exceptions escaping to the outer handler of line 272 (their `str(e)` text is
not modelled, no claim reads it). -/
inductive GqAwgOut where
  | ok (r : Json)
  | errMissing
  | errNoParse
  | errDecode
  | errOther

/-- Required-field check of the module-level `analyze_with_groq` (lines
269-271): no sentiment validation at all. -/
def gqAwgFields (result : Json) : GqAwgOut :=
  match pyIn "summary" result with
  | .error _ => GqAwgOut.errOther
  | .ok hasSum =>
    if !hasSum then GqAwgOut.errMissing
    else
      match pyIn "sentiment" result with
      | .error _ => GqAwgOut.errOther
      | .ok hasSen =>
        if !hasSen then GqAwgOut.errMissing else GqAwgOut.ok result

/-- Parse portion of the module-level `analyze_with_groq` (lines 257-271):
no strip, no fence removal, direct parse then the greedy brace regex. -/
def gqAwgParse (content : String) : GqAwgOut :=
  let l := content.toList
  match jsonLoadsL l with
  | some result => gqAwgFields result
  | none =>
    match findBroadGq l with
    | some m =>
      match jsonLoadsL m with
      | some result => gqAwgFields result
      | none => GqAwgOut.errDecode
    | none => GqAwgOut.errNoParse

/-- Observable trace of `_make_api_request` (lines 107-129): final outcome
(`error none` is the `Max retries exceeded` fall-through, `error (some e)` the
re-raised last request failure), the sleeps performed, and the number of
attempts made. -/
structure RetryTrace (ε α : Type) where
  result : Except (Option ε) α
  sleeps : List ℚ
  attempts : ℕ

/-- The retry loop of `_make_api_request`, structurally recursive on the
number of remaining iterations; `attempt` is the 0-based index of the current
iteration.  With one iteration left a failure is re-raised without sleeping
(the `else: raise` of line 127); otherwise the loop sleeps
`retry_delay * 2 ** attempt` (line 125) and continues. -/
def retryLoopAux (oracle : ℕ → Except ε α) (d : ℚ) : ℕ → ℕ → RetryTrace ε α
  | 0, _ => ⟨.error none, [], 0⟩
  | 1, attempt =>
    match oracle attempt with
    | .ok a => ⟨.ok a, [], 1⟩
    | .error e => ⟨.error (some e), [], 1⟩
  | r + 2, attempt =>
    match oracle attempt with
    | .ok a => ⟨.ok a, [], 1⟩
    | .error _ =>
      let t := retryLoopAux oracle d (r + 1) (attempt + 1)
      ⟨t.result, d * 2 ^ attempt :: t.sleeps, t.attempts + 1⟩

/-- Model of `_make_api_request` with the network modelled as an oracle mapping each
attempt index to that attempt's outcome (a successful `response.json()` value
or the `requests` exception's message). -/
def makeApiRequest (oracle : ℕ → Except ε α) (maxRetries : ℕ) (d : ℚ) :
    RetryTrace ε α :=
  retryLoopAux oracle d maxRetries 0

/-- The `SentimentType` enumeration of `groq_utils.py`. -/
inductive SentimentType where
  | positive
  | negative
  | neutral
deriving DecidableEq

/-- The enum constructor call `SentimentType(value)` (line 197). -/
def SentimentType.ofValue : Json → Except PyErr SentimentType
  | .str "positive" => .ok .positive
  | .str "negative" => .ok .negative
  | .str "neutral" => .ok .neutral
  | other =>
    .error (.valueError (pyRepr other ++ " is not a valid SentimentType"))

/-- Model of `dict.get` (used for the optional fields, lines 198-200). -/
def pyDictGet (v : Json) (k : String) : Except PyErr (Option Json) :=
  match v with
  | .obj fields => .ok (objGet fields k)
  | other =>
    .error (.attributeError ("'" ++ pyTypeName other ++ "' object has no attribute 'get'"))

/-- The `AnalysisResult` dataclass of `groq_utils.py` (lines 24-31); the
source never type-checks the field values, so they stay JSON values. -/
structure AnalysisResult where
  summary : Json
  sentiment : SentimentType
  confidence_score : Option Json
  key_topics : Option Json
  word_count : Option Json

/-- Construction of the structured result in `analyze` (lines 195-201). -/
def buildResult (r : Json) : Except PyErr AnalysisResult := do
  let summary ← pyGetItemStr r "summary"
  let sentimentVal ← pyGetItemStr r "sentiment"
  let sentiment ← SentimentType.ofValue sentimentVal
  let confidence ← pyDictGet r "confidence_score"
  let topics ← pyDictGet r "key_topics"
  let wordCount ← pyDictGet r "word_count"
  pure ⟨summary, sentiment, confidence, topics, wordCount⟩

/-- Observable trace of `GroqTranscriptAnalyzer.analyze`: the returned
`(result, error_message)` pair and how many network attempts were made. -/
structure AnalyzeTrace where
  result : Option AnalysisResult
  errorMsg : Option String
  networkAttempts : ℕ

/-- The request/parse/build tail of `GroqTranscriptAnalyzer.analyze` (lines
188-209), applied to the retry loop's outcome; every raised exception is
caught by the handler of line 206 and becomes `Analysis failed: ...` with no
result. -/
def analyzeSteps (attempts : ℕ) : Except (Option String) Json → AnalyzeTrace
  | .error none => ⟨none, some "Analysis failed: Max retries exceeded", attempts⟩
  | .error (some e) => ⟨none, some ("Analysis failed: " ++ e), attempts⟩
  | .ok respData =>
    match gqParseResponse respData with
    | .error e => ⟨none, some ("Analysis failed: " ++ e.msg), attempts⟩
    | .ok (r, _) =>
      match buildResult r with
      | .error e => ⟨none, some ("Analysis failed: " ++ e.msg), attempts⟩
      | .ok res => ⟨some res, none, attempts⟩

/-- Model of `GroqTranscriptAnalyzer.analyze` assembled from its steps. -/
def analyzeModel (maxRetries : ℕ) (retryDelay : ℚ)
    (oracle : ℕ → Except String Json) (transcript : String) : AnalyzeTrace :=
  if pyStrip transcript.toList = [] then
    ⟨none, some "Analysis failed: Transcript cannot be empty", 0⟩
  else
    analyzeSteps (makeApiRequest oracle maxRetries retryDelay).attempts
      (makeApiRequest oracle maxRetries retryDelay).result

/-- Outcome of `app.py.analyze_with_groq` together with whether the outbound
request was issued.  The single network attempt is an oracle: `ok reply`
is the reply text of a 2xx response, `error msg` collapses the non-2xx
branch (lines 54-57) and the raised-exception branch (lines 119-120) into
the message each returns. -/
structure AppCallOut where
  result : Except String (Json × Bool)
  networkCalled : Bool

/-- Model of `app.py.analyze_with_groq` (lines 19-120). -/
def appAnalyzeWithGroq (hasKey : Bool) (oracle : Except String String) :
    AppCallOut :=
  if !hasKey then
    ⟨.error "GROQ_API_KEY not found in environment variables. Please check your .env file.",
      false⟩
  else
    match oracle with
    | .error e => ⟨.error e, true⟩
    | .ok reply => ⟨appParse reply, true⟩

/-- HTTP response of the `/analyze` route: a JSON body with status 200, or an
error object with the given status. -/
inductive RouteResp where
  | ok (body : Json)
  | err (msg : String) (code : ℕ)

/-- Observable trace of the `/analyze` route handler. -/
structure RouteTrace where
  resp : RouteResp
  networkCalled : Bool
  csvAttempted : Bool
  csvWritten : Bool

/-- The `/analyze` route handler of `app.py` (lines 1052-1085): strip and
check the transcript, call `analyze_with_groq`, then attempt the CSV append
inside its own try/except (lines 1074-1078) so a failed write never changes
the response.  `csvOk` says whether `append_to_csv` would succeed. -/
def analyzeRoute (hasKey : Bool) (oracle : Except String String) (csvOk : Bool)
    (transcriptField : String) : RouteTrace :=
  let transcript := pyStrip transcriptField.toList
  if transcript.isEmpty then
    ⟨.err "Transcript is required" 400, false, false, false⟩
  else if transcript.length > 10000 then
    ⟨.err "Transcript too long (max 10,000 characters)" 400, false, false, false⟩
  else
    let call := appAnalyzeWithGroq hasKey oracle
    match call.result with
    | .error e => ⟨.err e 500, call.networkCalled, false, false⟩
    | .ok (r, _) => ⟨.ok r, call.networkCalled, true, csvOk⟩

/-! ### Lemmas about the retry loop -/

theorem retryLoopAux_attempts_le (oracle : ℕ → Except ε α) (d : ℚ) :
    ∀ r a, (retryLoopAux oracle d r a).attempts ≤ r := by
  intro r
  induction r using Nat.strong_induction_on with
  | _ r ih =>
    intro a
    match r with
    | 0 => simp [retryLoopAux]
    | 1 =>
      simp only [retryLoopAux]
      cases oracle a <;> simp
    | r + 2 =>
      simp only [retryLoopAux]
      cases oracle a with
      | ok v => simp
      | error e =>
        simp only
        have := ih (r + 1) (by omega) (a + 1)
        omega

theorem retryLoopAux_attempts_pos (oracle : ℕ → Except ε α) (d : ℚ) (r a : ℕ)
    (hr : 1 ≤ r) : 1 ≤ (retryLoopAux oracle d r a).attempts := by
  match r with
  | 0 => omega
  | 1 =>
    simp only [retryLoopAux]
    cases oracle a <;> simp
  | r + 2 =>
    simp only [retryLoopAux]
    cases oracle a <;> simp

theorem retryLoopAux_sleeps (oracle : ℕ → Except ε α) (d : ℚ) :
    ∀ r a, (retryLoopAux oracle d r a).sleeps =
      (List.range ((retryLoopAux oracle d r a).attempts - 1)).map
        (fun i => d * 2 ^ (a + i)) := by
  intro r
  induction r using Nat.strong_induction_on with
  | _ r ih =>
    intro a
    match r with
    | 0 => simp [retryLoopAux]
    | 1 =>
      simp only [retryLoopAux]
      cases oracle a <;> simp
    | r + 2 =>
      simp only [retryLoopAux]
      cases oracle a with
      | ok v => simp
      | error e =>
        simp only
        have hpos := retryLoopAux_attempts_pos oracle d (r + 1) (a + 1) (by omega)
        have hrec := ih (r + 1) (by omega) (a + 1)
        obtain ⟨n, hn⟩ : ∃ n, (retryLoopAux oracle d (r + 1) (a + 1)).attempts = n + 1 :=
          ⟨(retryLoopAux oracle d (r + 1) (a + 1)).attempts - 1, by omega⟩
        rw [hrec, hn]
        simp only [Nat.add_sub_cancel, List.range_succ_eq_map, List.map_cons,
          List.map_map]
        congr 1
        apply List.map_congr_left
        intro i _
        simp only [Function.comp, Nat.succ_eq_add_one]
        have harith : a + 1 + i = a + (i + 1) := by omega
        rw [harith]

theorem retryLoopAux_all_fail (oracle : ℕ → Except ε α) (d : ℚ) :
    ∀ r a, 1 ≤ r → (∀ i, i < r → ∃ e, oracle (a + i) = .error e) →
      (retryLoopAux oracle d r a).attempts = r ∧
      ∃ e, oracle (a + r - 1) = .error e ∧
        (retryLoopAux oracle d r a).result = .error (some e) := by
  intro r
  induction r using Nat.strong_induction_on with
  | _ r ih =>
    intro a hr hfail
    match r with
    | 1 =>
      obtain ⟨e, he⟩ := hfail 0 (by omega)
      rw [Nat.add_zero] at he
      exact ⟨by simp [retryLoopAux, he], e, by simpa using he,
        by simp [retryLoopAux, he]⟩
    | r + 2 =>
      obtain ⟨e, he⟩ := hfail 0 (by omega)
      rw [Nat.add_zero] at he
      simp only [retryLoopAux, he]
      have hrec := ih (r + 1) (by omega) (a + 1) (by omega)
        (fun i hi => by
          have := hfail (i + 1) (by omega)
          rwa [show a + (i + 1) = a + 1 + i by omega] at this)
      obtain ⟨hat, e', he', hres'⟩ := hrec
      refine ⟨by simp [hat], e', ?_, by simpa using hres'⟩
      rwa [show a + (r + 2) - 1 = a + 1 + (r + 1) - 1 by omega]

theorem retryLoopAux_first_success (oracle : ℕ → Except ε α) (d : ℚ) :
    ∀ r a k v, k < r → (∀ j, j < k → ∃ e, oracle (a + j) = .error e) →
      oracle (a + k) = .ok v →
      (retryLoopAux oracle d r a).result = .ok v ∧
      (retryLoopAux oracle d r a).attempts = k + 1 := by
  intro r
  induction r using Nat.strong_induction_on with
  | _ r ih =>
    intro a k v hk hbefore hok
    match r with
    | 1 =>
      have hk0 : k = 0 := by omega
      subst hk0
      rw [Nat.add_zero] at hok
      simp [retryLoopAux, hok]
    | r + 2 =>
      match k with
      | 0 =>
        rw [Nat.add_zero] at hok
        simp [retryLoopAux, hok]
      | k + 1 =>
        obtain ⟨e, he⟩ := hbefore 0 (by omega)
        rw [Nat.add_zero] at he
        simp only [retryLoopAux, he]
        have hrec := ih (r + 1) (by omega) (a + 1) k v (by omega)
          (fun j hj => by
            have := hbefore (j + 1) (by omega)
            rwa [show a + (j + 1) = a + 1 + j by omega] at this)
          (by rwa [show a + 1 + k = a + (k + 1) by omega])
        exact ⟨by simpa using hrec.1, by simp [hrec.2]⟩

/-- Claim C3: with maximum retry count `R ≥ 1` and base delay `D`,
`_make_api_request` makes at most `R` attempts; the sleep after the i-th
failed non-final attempt is exactly `D * 2 ^ i` (so no delay follows the
final attempt); when every attempt fails the loop makes exactly `R` attempts
and re-raises the last attempt's failure; and the first successful attempt's
response is returned, after exactly that many attempts. -/
theorem claim_C3_retry_contract (ε α : Type) (oracle : ℕ → Except ε α)
    (R : ℕ) (d : ℚ) (hR : 1 ≤ R) :
    (makeApiRequest oracle R d).attempts ≤ R ∧
    (makeApiRequest oracle R d).sleeps =
      (List.range ((makeApiRequest oracle R d).attempts - 1)).map
        (fun i => d * 2 ^ i) ∧
    ((∀ i, i < R → ∃ e, oracle i = .error e) →
      (makeApiRequest oracle R d).attempts = R ∧
      ∃ e, oracle (R - 1) = .error e ∧
        (makeApiRequest oracle R d).result = .error (some e)) ∧
    (∀ k v, k < R → (∀ j, j < k → ∃ e, oracle j = .error e) →
      oracle k = .ok v →
      (makeApiRequest oracle R d).result = .ok v ∧
      (makeApiRequest oracle R d).attempts = k + 1) := by
  refine ⟨retryLoopAux_attempts_le oracle d R 0, ?_, ?_, ?_⟩
  · have := retryLoopAux_sleeps oracle d R 0
    simpa [makeApiRequest] using this
  · intro hfail
    have := retryLoopAux_all_fail oracle d R 0 hR (fun i hi => by simpa using hfail i hi)
    simpa [makeApiRequest] using this
  · intro k v hk hbefore hok
    have := retryLoopAux_first_success oracle d R 0 k v hk
      (fun j hj => by simpa using hbefore j hj) (by simpa using hok)
    simpa [makeApiRequest] using this

/-- An oracle that fails on every attempt (for the C3 witness). -/
def alwaysFailOracle : ℕ → Except ℕ ℕ := fun _ => Except.error 7

/-- Witness for C3: a call that always fails with `max_retries = 3` and base
delay 1 makes exactly 3 attempts, re-raises the last failure, and sleeps
1 then 2 seconds (no delay after the final failure). -/
theorem claim_C3_retry_contract_witness :
    (makeApiRequest alwaysFailOracle 3 1).attempts = 3 ∧
    (makeApiRequest alwaysFailOracle 3 1).result = Except.error (some 7) ∧
    (makeApiRequest alwaysFailOracle 3 1).sleeps = [1, 2] := by
  obtain ⟨hle, hsleeps, hall, hfirst⟩ :=
    claim_C3_retry_contract ℕ ℕ alwaysFailOracle 3 1 (by decide)
  obtain ⟨hat, e, he, hres⟩ := hall (fun i _ => ⟨7, rfl⟩)
  have he7 : e = 7 := by
    simp only [alwaysFailOracle, Except.error.injEq] at he
    omega
  refine ⟨hat, by rw [hres, he7], ?_⟩
  rw [hsleeps, hat]
  simp [List.range_succ]

/-- Claim C8: an empty or whitespace-only transcript makes the `/analyze`
route answer `Transcript is required` with status 400 without issuing the
network call, and makes `GroqTranscriptAnalyzer.analyze` return the
`Transcript cannot be empty` failure with zero network attempts. -/
theorem claim_C8_empty_transcript (hasKey : Bool) (oracle : Except String String)
    (csvOk : Bool) (maxRetries : ℕ) (retryDelay : ℚ)
    (gqOracle : ℕ → Except String Json) (t : String)
    (h : pyStrip t.toList = []) :
    (analyzeRoute hasKey oracle csvOk t).resp = RouteResp.err "Transcript is required" 400 ∧
    (analyzeRoute hasKey oracle csvOk t).networkCalled = false ∧
    (analyzeModel maxRetries retryDelay gqOracle t).result = none ∧
    (analyzeModel maxRetries retryDelay gqOracle t).errorMsg =
      some "Analysis failed: Transcript cannot be empty" ∧
    (analyzeModel maxRetries retryDelay gqOracle t).networkAttempts = 0 := by
  have h' : pyStrip t.data = [] := h
  refine ⟨?_, ?_, ?_, ?_, ?_⟩ <;> simp [analyzeRoute, analyzeModel, h']

/-- Witness for C8 at the whitespace-only transcript `" \n "`. -/
theorem claim_C8_empty_transcript_witness :
    (analyzeRoute true (Except.ok "") true " \n ").resp =
      RouteResp.err "Transcript is required" 400 ∧
    (analyzeModel 3 1 (fun _ => Except.error "down") " \n ").networkAttempts = 0 := by
  obtain ⟨h1, _, _, _, h5⟩ :=
    claim_C8_empty_transcript true (Except.ok "") true 3 1
      (fun _ => Except.error "down") " \n " (by decide)
  exact ⟨h1, h5⟩

/-- Claim C9: when the analysis itself succeeds, the `/analyze` route returns
the analysis result as a success response whether or not the CSV append
fails; a failing append is swallowed by the handler of lines 1074-1078. -/
theorem claim_C9_csv_failure_not_fatal (hasKey : Bool)
    (oracle : Except String String) (t : String) (r : Json) (w : Bool)
    (hne : (pyStrip t.toList).isEmpty = false)
    (hlen : ¬ (pyStrip t.toList).length > 10000)
    (hok : (appAnalyzeWithGroq hasKey oracle).result = Except.ok (r, w)) :
    (analyzeRoute hasKey oracle false t).resp = RouteResp.ok r ∧
    (analyzeRoute hasKey oracle true t).resp = RouteResp.ok r ∧
    (analyzeRoute hasKey oracle false t).csvWritten = false := by
  have hne' : pyStrip t.data ≠ [] := by
    intro hc
    have hx : (pyStrip t.toList).isEmpty = true := by
      show (pyStrip t.data).isEmpty = true
      rw [hc]
      rfl
    rw [hx] at hne
    simp at hne
  have hlen' : ¬ (pyStrip t.data).length > 10000 := hlen
  refine ⟨?_, ?_, ?_⟩ <;> simp [analyzeRoute, hne', hlen', hok]

/-- Witness for C9: a concrete successful analysis whose CSV append fails
still yields the success response. -/
theorem claim_C9_csv_failure_not_fatal_witness :
    (analyzeRoute true
        (Except.ok "\x7b\"summary\": \"s\", \"sentiment\": \"positive\"\x7d")
        false "hello").resp =
      RouteResp.ok (Json.obj [("summary", Json.str "s"), ("sentiment", Json.str "positive")]) := by
  exact (claim_C9_csv_failure_not_fatal true
    (Except.ok "\x7b\"summary\": \"s\", \"sentiment\": \"positive\"\x7d")
    "hello"
    (Json.obj [("summary", Json.str "s"), ("sentiment", Json.str "positive")])
    false (by decide) (by decide) rfl).1

/-- Claim C10: `GroqTranscriptAnalyzer.analyze` always returns a pair with
exactly one non-`None` component — a result with no error message, or no
result with an error message — whatever the transcript and the behaviour of
the network and parsing layers; its catch-all handler (line 206) means no
exception escapes, which the totality of the model reflects. -/
theorem claim_C10_analyze_exclusive_pair (maxRetries : ℕ) (retryDelay : ℚ)
    (oracle : ℕ → Except String Json) (t : String) :
    ((analyzeModel maxRetries retryDelay oracle t).result.isSome ∧
      (analyzeModel maxRetries retryDelay oracle t).errorMsg = none) ∨
    ((analyzeModel maxRetries retryDelay oracle t).result = none ∧
      (analyzeModel maxRetries retryDelay oracle t).errorMsg.isSome) := by
  have hsteps : ∀ (n : ℕ) (res : Except (Option String) Json),
      ((analyzeSteps n res).result.isSome ∧ (analyzeSteps n res).errorMsg = none) ∨
      ((analyzeSteps n res).result = none ∧ (analyzeSteps n res).errorMsg.isSome) := by
    intro n res
    unfold analyzeSteps
    split
    · right
      simp
    · right
      simp
    · split
      · right
        simp
      · split
        · right
          simp
        · left
          simp
  unfold analyzeModel
  split
  · right
    simp
  · exact hsteps _ _

/-! ### Lemmas about parsed objects and the two validators -/

theorem objGet_objInsert_self (f : List (String × Json)) (k : String) (v : Json) :
    objGet (objInsert f k v) k = some v := by
  induction f with
  | nil => simp [objInsert, objGet]
  | cons kv t ih =>
    by_cases hk : kv.1 = k
    · simp [objInsert, objGet, hk]
    · simp [objInsert, objGet, hk, ih]

theorem appFinal_mem (s : String) :
    (if (!validSentiments.contains (pyLower s)) = true then "neutral" else pyLower s) = "positive" ∨
    (if (!validSentiments.contains (pyLower s)) = true then "neutral" else pyLower s) = "negative" ∨
    (if (!validSentiments.contains (pyLower s)) = true then "neutral" else pyLower s) = "neutral" := by
  by_cases hc : validSentiments.contains (pyLower s) = true
  · have hf : (!validSentiments.contains (pyLower s)) = false := by rw [hc]; rfl
    rw [hf]
    simp only [Bool.false_eq_true, if_false]
    simpa [validSentiments] using hc
  · have ht : (!validSentiments.contains (pyLower s)) = true := by
      simp only [Bool.not_eq_true] at hc
      rw [hc]; rfl
    rw [ht]
    simp

theorem appValidate_ok (r v : Json) (w : Bool)
    (h : appValidate r = Except.ok (v, w)) :
    ∃ fields s, v = Json.obj fields ∧
      objGet fields "sentiment" = some (Json.str s) ∧
      (s = "positive" ∨ s = "negative" ∨ s = "neutral") := by
  unfold appValidate at h
  split at h
  · simp at h
  · split at h
    · simp at h
    · split at h
      · simp at h
      · split at h
        · simp at h
        · split at h
          · simp at h
          · rename_i sv hget
            cases r with
            | obj f =>
              cases sv with
              | str s =>
                simp only [Except.ok.injEq, Prod.mk.injEq] at h
                obtain ⟨hv, hw⟩ := h
                refine ⟨objInsert f "sentiment"
                  (Json.str (if !(validSentiments.contains (pyLower s)) then "neutral"
                    else pyLower s)), _, ?_, objGet_objInsert_self _ _ _, ?_⟩
                · rw [← hv]
                  simp [pySetItemStr]
                · exact appFinal_mem s
              | null => simp at h
              | bool b => simp at h
              | num lex => simp at h
              | arr l => simp at h
              | obj f2 => simp at h
            | null => simp [pyGetItemStr] at hget
            | bool b => simp [pyGetItemStr] at hget
            | num lex => simp [pyGetItemStr] at hget
            | str st => simp [pyGetItemStr] at hget
            | arr l => simp [pyGetItemStr] at hget

theorem gqValidate_ok (r v : Json) (w : Bool)
    (h : gqValidate r = Except.ok (v, w)) :
    ∃ fields s, v = Json.obj fields ∧
      objGet fields "sentiment" = some (Json.str s) ∧
      (s = "positive" ∨ s = "negative" ∨ s = "neutral") := by
  unfold gqValidate at h
  split at h
  · simp at h
  · split at h
    · simp at h
    · split at h
      · simp at h
      · split at h
        · simp at h
        · split at h
          · simp at h
          · rename_i sv hget
            cases r with
            | obj f =>
              have hcoerce : pySetItemStr (Json.obj f) "sentiment" (Json.str "neutral") = v →
                  ∃ fields s, v = Json.obj fields ∧
                    objGet fields "sentiment" = some (Json.str s) ∧
                    (s = "positive" ∨ s = "negative" ∨ s = "neutral") := by
                intro hv
                refine ⟨objInsert f "sentiment" (Json.str "neutral"), "neutral", ?_,
                  objGet_objInsert_self _ _ _, by simp⟩
                rw [← hv]
                simp [pySetItemStr]
              have hobjget : ∃ x, objGet f "sentiment" = some x ∧ x = sv := by
                simp only [pyGetItemStr] at hget
                cases hobj : objGet f "sentiment" with
                | none => rw [hobj] at hget; simp at hget
                | some x =>
                  rw [hobj] at hget
                  simp only [Except.ok.injEq] at hget
                  exact ⟨x, rfl, hget⟩
              obtain ⟨x, hobj, hx⟩ := hobjget
              subst hx
              cases x with
              | str s =>
                by_cases hc : validSentiments.contains s = true
                · simp only [hc, if_true] at h
                  simp only [Except.ok.injEq, Prod.mk.injEq] at h
                  obtain ⟨hv, hw⟩ := h
                  refine ⟨f, s, hv.symm, hobj, ?_⟩
                  simpa [validSentiments] using hc
                · simp only [Bool.not_eq_true] at hc
                  simp only [hc, Bool.false_eq_true, if_false] at h
                  simp only [Except.ok.injEq, Prod.mk.injEq] at h
                  exact hcoerce h.1
              | null =>
                simp only [Bool.false_eq_true, if_false, Except.ok.injEq,
                  Prod.mk.injEq] at h
                exact hcoerce h.1
              | bool b =>
                simp only [Bool.false_eq_true, if_false, Except.ok.injEq,
                  Prod.mk.injEq] at h
                exact hcoerce h.1
              | num lex =>
                simp only [Bool.false_eq_true, if_false, Except.ok.injEq,
                  Prod.mk.injEq] at h
                exact hcoerce h.1
              | arr l =>
                simp only [Bool.false_eq_true, if_false, Except.ok.injEq,
                  Prod.mk.injEq] at h
                exact hcoerce h.1
              | obj f2 =>
                simp only [Bool.false_eq_true, if_false, Except.ok.injEq,
                  Prod.mk.injEq] at h
                exact hcoerce h.1
            | null => simp [pyGetItemStr] at hget
            | bool b => simp [pyGetItemStr] at hget
            | num lex => simp [pyGetItemStr] at hget
            | str st => simp [pyGetItemStr] at hget
            | arr l => simp [pyGetItemStr] at hget

theorem contains_of_lower (sv : String)
    (h : validSentiments.contains sv = true) :
    validSentiments.contains (pyLower sv) = true := by
  have hmem : sv = "positive" ∨ sv = "negative" ∨ sv = "neutral" := by
    simpa [validSentiments] using h
  rcases hmem with h' | h' | h' <;> subst h' <;> decide

/-- Claim C2: every result either rescuer returns carries a sentiment in
exactly {positive, negative, neutral}; when the parsed sentiment value is
not in this set after lower-casing, both validators overwrite it with
`neutral`, record the warning (the returned flag), and succeed rather than
fail. -/
theorem claim_C2_sentiment_invariant :
    (∀ reply v w, appParse reply = Except.ok (v, w) →
      ∃ fields s, v = Json.obj fields ∧
        objGet fields "sentiment" = some (Json.str s) ∧
        (s = "positive" ∨ s = "negative" ∨ s = "neutral")) ∧
    (∀ fields sv, (objGet fields "summary").isSome = true →
      objGet fields "sentiment" = some (Json.str sv) →
      validSentiments.contains (pyLower sv) = false →
      appValidate (Json.obj fields) =
        Except.ok (Json.obj (objInsert fields "sentiment" (Json.str "neutral")), true)) ∧
    (∀ reply v w, gqParseContent reply = Except.ok (v, w) →
      ∃ fields s, v = Json.obj fields ∧
        objGet fields "sentiment" = some (Json.str s) ∧
        (s = "positive" ∨ s = "negative" ∨ s = "neutral")) ∧
    (∀ fields sv, (objGet fields "summary").isSome = true →
      objGet fields "sentiment" = some (Json.str sv) →
      validSentiments.contains (pyLower sv) = false →
      gqValidate (Json.obj fields) =
        Except.ok (Json.obj (objInsert fields "sentiment" (Json.str "neutral")), true)) := by
  refine ⟨?_, ?_, ?_, ?_⟩
  · intro reply v w h
    unfold appParse at h
    split at h
    · simp at h
    · exact appValidate_ok _ _ _ h
  · intro fields sv h1 h2 h3
    have h3' : pyLower sv ∉ validSentiments := by simpa using h3
    simp [appValidate, pyIn, pyGetItemStr, pySetItemStr, h1, h2, h3, h3']
  · intro reply v w h
    unfold gqParseContent gqParseChars at h
    split at h
    · simp at h
    · exact gqValidate_ok _ _ _ h
  · intro fields sv h1 h2 h3
    have hs' : validSentiments.contains sv = false := by
      cases hsv : validSentiments.contains sv
      · rfl
      · exfalso
        have hcl := contains_of_lower sv hsv
        rw [h3] at hcl
        exact Bool.noConfusion hcl
    have hs'' : sv ∉ validSentiments := by simpa using hs'
    simp [gqValidate, pyIn, pyGetItemStr, pySetItemStr, h1, h2, hs', hs'']

/-- Witness for C2: both validators coerce a concrete out-of-set sentiment
(`Great` and `excited`) to `neutral` with the warning flag set, succeeding. -/
theorem claim_C2_sentiment_invariant_witness :
    appValidate (Json.obj [("summary", Json.str "s"), ("sentiment", Json.str "Great")]) =
      Except.ok (Json.obj [("summary", Json.str "s"), ("sentiment", Json.str "neutral")], true) ∧
    gqValidate (Json.obj [("summary", Json.str "s"), ("sentiment", Json.str "excited")]) =
      Except.ok (Json.obj [("summary", Json.str "s"), ("sentiment", Json.str "neutral")], true) := by
  obtain ⟨h1, h2, h3, h4⟩ := claim_C2_sentiment_invariant
  constructor
  · exact h2 [("summary", Json.str "s"), ("sentiment", Json.str "Great")] "Great"
      (by decide) rfl (by decide)
  · exact h4 [("summary", Json.str "s"), ("sentiment", Json.str "excited")] "excited"
      (by decide) rfl (by decide)

/-! ### Lemmas for the pass-through claims -/

theorem parseCore_backtick (fuel : ℕ) (l : List Char) :
    parseCore fuel PMode.value ('\x60' :: l) = none := by
  have hdig : ('\x60' : Char).isDigit = false := by decide
  cases fuel with
  | zero => rfl
  | succ n =>
    simp [parseCore, skipWs, List.dropWhile_cons, isJsonWs, parseNum,
      parseIntPart, hdig]

theorem jsonLoadsL_backtick (l : List Char) : jsonLoadsL ('\x60' :: l) = none := by
  unfold jsonLoadsL
  rw [parseCore_backtick]

theorem pyStartsWith_fence_of_parse (l : List Char) (v : Json)
    (h : jsonLoadsL l = some v) : pyStartsWith l fenceMarker = false := by
  cases l with
  | nil => decide
  | cons c t =>
    by_cases hc : c = '\x60'
    · subst hc
      rw [jsonLoadsL_backtick] at h
      exact Option.noConfusion h
    · simp only [pyStartsWith, fenceMarker]
      apply decide_eq_false
      intro heq
      have heq' : c :: List.take 2 t = ['\x60', '\x60', '\x60'] := heq
      injection heq' with hhd _
      exact hc hhd

theorem obj_falsy_of_get (f : List (String × Json)) (k : String) (v : Json)
    (h : objGet f k = some v) : (Json.obj f).falsy = false := by
  cases f with
  | nil => simp [objGet] at h
  | cons kv t => rfl

/-- Claim C1 (amended): for a reply that is itself valid JSON parsing to an
object with `summary` and `sentiment` keys, `app.py`'s rescuer returns the
object unchanged except that the sentiment is lower-cased (when the
lower-cased value is whitelisted), while `groq_utils._parse_response` does no
case normalization: it returns the object fully unchanged when the sentiment
is exactly `positive`/`negative`/`neutral`, and otherwise — including
capitalized variants of valid values — replaces it with `neutral`. -/
theorem claim_C1_passthrough (reply : String) (fields : List (String × Json))
    (sumv : Json) (sv : String)
    (h0 : pyStrip reply.toList = reply.toList)
    (h1 : jsonLoadsL reply.toList = some (Json.obj fields))
    (h2 : objGet fields "summary" = some sumv)
    (h3 : objGet fields "sentiment" = some (Json.str sv)) :
    (validSentiments.contains (pyLower sv) = true →
      appParse reply =
        Except.ok (Json.obj (objInsert fields "sentiment" (Json.str (pyLower sv))), false)) ∧
    (validSentiments.contains sv = true →
      gqParseContent reply = Except.ok (Json.obj fields, false)) ∧
    (validSentiments.contains sv = false →
      gqParseContent reply =
        Except.ok (Json.obj (objInsert fields "sentiment" (Json.str "neutral")), true)) := by
  have hfalsy : (Json.obj fields).falsy = false := obj_falsy_of_get fields _ sumv h2
  have hsum : (objGet fields "summary").isSome = true := by rw [h2]; rfl
  have h1' : jsonLoadsL reply.data = some (Json.obj fields) := h1
  have hrescued : appRescued (pyStrip reply.toList) = some (Json.obj fields) := by
    rw [h0]
    simp [appRescued, appAfterExtract, appAfterFence, appAfterDirect, h1, h1',
      pyFalsyOpt, hfalsy]
  have hfence : pyStartsWith reply.toList fenceMarker = false :=
    pyStartsWith_fence_of_parse _ _ h1
  have hgq : gqRescued (gqFenceClean (pyStrip reply.toList)) = some (Json.obj fields) := by
    rw [h0]
    have hfence' : pyStartsWith reply.data fenceMarker = false := hfence
    simp [gqFenceClean, hfence, hfence', gqRescued, h1, h1']
  refine ⟨?_, ?_, ?_⟩
  · intro hc
    have hmem : pyLower sv ∈ validSentiments := by simpa using hc
    unfold appParse
    rw [hrescued]
    simp [appValidate, pyIn, pyGetItemStr, pySetItemStr, hsum, h3, hc, hmem]
  · intro hc
    have hmem : sv ∈ validSentiments := by simpa using hc
    unfold gqParseContent gqParseChars
    rw [hgq]
    simp [gqValidate, pyIn, pyGetItemStr, hsum, h3, hc, hmem]
  · intro hc
    have hmem : sv ∉ validSentiments := by simpa using hc
    unfold gqParseContent gqParseChars
    rw [hgq]
    simp [gqValidate, pyIn, pyGetItemStr, pySetItemStr, hsum, h3, hc, hmem]

/-- Counterexample to C1 as stated: the reply is valid JSON whose sentiment
`Positive` lower-cases to the whitelisted `positive`, yet
`GroqTranscriptAnalyzer._parse_response` returns it coerced to `neutral`
(with the warning flag), not lower-cased. -/
theorem claim_C1_counterexample :
    gqParseContent "\x7b\"summary\": \"s\", \"sentiment\": \"Positive\"\x7d" =
      Except.ok
        (Json.obj [("summary", Json.str "s"), ("sentiment", Json.str "neutral")], true) ∧
    pyLower "Positive" = "positive" ∧ ("neutral" : String) ≠ "positive" := by
  exact ⟨rfl, by decide, by decide⟩

/-- Witness for the amended C1 at a concrete reply with sentiment
`POSITIVE`: `app.py` lower-cases it, `groq_utils` coerces it to neutral. -/
theorem claim_C1_passthrough_witness :
    appParse "\x7b\"summary\": \"s\", \"sentiment\": \"POSITIVE\"\x7d" =
      Except.ok
        (Json.obj [("summary", Json.str "s"), ("sentiment", Json.str "positive")], false) ∧
    gqParseContent "\x7b\"summary\": \"s\", \"sentiment\": \"POSITIVE\"\x7d" =
      Except.ok
        (Json.obj [("summary", Json.str "s"), ("sentiment", Json.str "neutral")], true) := by
  have h := claim_C1_passthrough
    "\x7b\"summary\": \"s\", \"sentiment\": \"POSITIVE\"\x7d"
    [("summary", Json.str "s"), ("sentiment", Json.str "POSITIVE")]
    (Json.str "s") "POSITIVE" (by decide) rfl rfl rfl
  exact ⟨h.1 (by decide), h.2.2 (by decide)⟩

/-! ### Lemmas about substring containment -/

theorem isPrefixOf_self_char (l : List Char) : l.isPrefixOf l = true := by
  induction l with
  | nil => rfl
  | cons c t ih => simp [List.isPrefixOf, ih]

theorem containsSub_append_self (pre sub : List Char) :
    containsSub (pre ++ sub) sub = true := by
  induction pre with
  | nil =>
    unfold containsSub
    rw [List.nil_append, isPrefixOf_self_char]
    rfl
  | cons c t ih =>
    unfold containsSub
    split
    · rfl
    · exact ih

theorem toList_append_mk (a : String) (l : List Char) :
    (a ++ String.mk l).toList = a.toList ++ l := rfl

/-- Claim C6 (amended): when every strategy of the cascade fails, no result is
returned and a parse-failure error is produced; `app.py`'s error message
embeds the (stripped) raw reply, but both `groq_utils` parse failures carry a
fixed message that does not include the raw reply — the raw text is only
written to the log. -/
theorem claim_C6_parse_failure :
    (∀ reply : String, appRescued (pyStrip reply.toList) = none →
      appParse reply =
        Except.error ("Could not parse JSON from response: " ++
          String.mk (pyStrip reply.toList)) ∧
      containsSub
        ("Could not parse JSON from response: " ++
          String.mk (pyStrip reply.toList)).toList
        (pyStrip reply.toList) = true) ∧
    (∀ reply : String, gqRescued (gqFenceClean (pyStrip reply.toList)) = none →
      gqParseContent reply =
        Except.error (PyErr.valueError "Failed to parse JSON response from Groq")) ∧
    (∀ content : String, jsonLoadsL content.toList = none →
      findBroadGq content.toList = none →
      gqAwgParse content = GqAwgOut.errNoParse) := by
  refine ⟨?_, ?_, ?_⟩
  · intro reply h
    refine ⟨?_, ?_⟩
    · unfold appParse
      rw [h]
    · rw [toList_append_mk]
      exact containsSub_append_self _ _
  · intro reply h
    unfold gqParseContent gqParseChars
    rw [h]
  · intro content h1 h2
    have h1' : jsonLoadsL content.data = none := h1
    have h2' : findBroadGq content.data = none := h2
    simp [gqAwgParse, h1, h1', h2, h2']

/-- Counterexample to C6 as stated: on a reply with no JSON anywhere,
`GroqTranscriptAnalyzer._parse_response` raises a fixed-message failure that
does not retain the raw reply text. -/
theorem claim_C6_counterexample :
    gqParseContent "no json here" =
      Except.error (PyErr.valueError "Failed to parse JSON response from Groq") ∧
    containsSub "Failed to parse JSON response from Groq".toList
      "no json here".toList = false := by
  exact ⟨rfl, by decide⟩

/-- Witness for the amended C6 at concrete replies. -/
theorem claim_C6_parse_failure_witness :
    appParse "xyz" = Except.error "Could not parse JSON from response: xyz" ∧
    gqAwgParse "no json" = GqAwgOut.errNoParse := by
  obtain ⟨h1, h2, h3⟩ := claim_C6_parse_failure
  constructor
  · rw [(h1 "xyz" rfl).1]
    rfl
  · exact h3 "no json" rfl rfl

/-- Claim C7 (amended): a parse that yields an object missing `summary` or
`sentiment` never returns a result and never substitutes a default;
`app.py` fails with a message naming the whole parsed object, but the empty
object `\x7b\x7d` is instead reported by `app.py` as a parse failure
(Python falsiness), and the `groq_utils` errors name the missing field
(`_parse_response`) or use a fixed message (`analyze_with_groq`), not the
parsed object. -/
theorem claim_C7_missing_fields :
    (∀ (reply : String) (fields : List (String × Json)),
      appRescued (pyStrip reply.toList) = some (Json.obj fields) →
      ((objGet fields "summary").isSome = false ∨
        (objGet fields "sentiment").isSome = false) →
      appParse reply =
        Except.error ("Missing required fields in response: " ++ pyStr (Json.obj fields))) ∧
    appParse "\x7b\x7d" = Except.error "Could not parse JSON from response: \x7b\x7d" ∧
    (∀ (reply : String) (fields : List (String × Json)),
      gqRescued (gqFenceClean (pyStrip reply.toList)) = some (Json.obj fields) →
      ((objGet fields "summary").isSome = false →
        gqParseContent reply =
          Except.error (PyErr.valueError "Missing required field: summary")) ∧
      ((objGet fields "summary").isSome = true →
        (objGet fields "sentiment").isSome = false →
        gqParseContent reply =
          Except.error (PyErr.valueError "Missing required field: sentiment"))) ∧
    (∀ fields : List (String × Json),
      ((objGet fields "summary").isSome = false ∨
        (objGet fields "sentiment").isSome = false) →
      gqAwgFields (Json.obj fields) = GqAwgOut.errMissing) := by
  refine ⟨?_, rfl, ?_, ?_⟩
  · intro reply fields h hmiss
    unfold appParse
    rw [h]
    rcases hmiss with hs | hs
    · simp [appValidate, pyIn, hs]
    · by_cases hsum : (objGet fields "summary").isSome = true
      · simp [appValidate, pyIn, hs, hsum]
      · have hsum' : (objGet fields "summary").isSome = false := by
          cases hx : (objGet fields "summary").isSome
          · rfl
          · exact absurd hx hsum
        simp [appValidate, pyIn, hsum']
  · intro reply fields h
    constructor
    · intro hs
      unfold gqParseContent gqParseChars
      rw [h]
      simp [gqValidate, pyIn, hs]
    · intro hsum hs
      unfold gqParseContent gqParseChars
      rw [h]
      simp [gqValidate, pyIn, hsum, hs]
  · intro fields hmiss
    rcases hmiss with hs | hs
    · simp [gqAwgFields, pyIn, hs]
    · by_cases hsum : (objGet fields "summary").isSome = true
      · simp [gqAwgFields, pyIn, hs, hsum]
      · have hsum' : (objGet fields "summary").isSome = false := by
          cases hx : (objGet fields "summary").isSome
          · rfl
          · exact absurd hx hsum
        simp [gqAwgFields, pyIn, hsum']

/-- Counterexample to C7 as stated: for the reply `\x7b"a": 1\x7d` (a valid
object missing both keys), `_parse_response` raises
`Missing required field: summary` — a message that names the missing field,
not the parsed object (whose Python repr is `\x7b'a': 1\x7d`). -/
theorem claim_C7_counterexample :
    gqParseContent "\x7b\"a\": 1\x7d" =
      Except.error (PyErr.valueError "Missing required field: summary") ∧
    pyStr (Json.obj [("a", Json.num "1")]) = "\x7b'a': 1\x7d" ∧
    containsSub "Missing required field: summary".toList
      "\x7b'a': 1\x7d".toList = false := by
  refine ⟨rfl, ?_, by decide⟩
  simp [pyStr, pyRepr, pyReprStrQ]
  rfl

/-- Witness for the amended C7 at the concrete reply `\x7b"a": 1\x7d`. -/
theorem claim_C7_missing_fields_witness :
    appParse "\x7b\"a\": 1\x7d" =
      Except.error ("Missing required fields in response: " ++
        pyStr (Json.obj [("a", Json.num "1")])) ∧
    gqAwgFields (Json.obj [("a", Json.num "1")]) = GqAwgOut.errMissing := by
  obtain ⟨h1, h2, h3, h4⟩ := claim_C7_missing_fields
  constructor
  · exact h1 "\x7b\"a\": 1\x7d" [("a", Json.num "1")] rfl (Or.inl (by decide))
  · exact h4 [("a", Json.num "1")] (Or.inl (by decide))

/-! ### Lemmas about stripping around code fences -/

theorem pyStrip_cons_ws (c : Char) (l : List Char) (hc : isPySpace c = true) :
    pyStrip (c :: l) = pyStrip l := by
  unfold pyStrip
  rw [List.dropWhile_cons]
  simp [hc]

theorem pyStrip_append_ws (c : Char) (l : List Char) (hc : isPySpace c = true) :
    pyStrip (l ++ [c]) = pyStrip l := by
  unfold pyStrip
  rw [List.dropWhile_append]
  by_cases he : (l.dropWhile isPySpace).isEmpty = true
  · rw [if_pos he]
    rw [List.isEmpty_iff] at he
    rw [he]
    simp [List.dropWhile_cons, hc]
  · rw [if_neg he]
    rw [List.reverse_append]
    simp [List.dropWhile_cons, hc]

theorem pyStrip_fenced (mid : List Char) :
    pyStrip ('\x60' :: (mid ++ ['\x60'])) = '\x60' :: (mid ++ ['\x60']) := by
  unfold pyStrip
  have h1 : List.dropWhile isPySpace ('\x60' :: (mid ++ ['\x60'])) =
      '\x60' :: (mid ++ ['\x60']) := by
    rw [List.dropWhile_cons, if_neg (by decide)]
  rw [h1]
  have h2 : ('\x60' :: (mid ++ ['\x60'])).reverse =
      '\x60' :: (mid.reverse ++ ['\x60']) := by
    simp
  rw [h2]
  have h3 : List.dropWhile isPySpace ('\x60' :: (mid.reverse ++ ['\x60'])) =
      '\x60' :: (mid.reverse ++ ['\x60']) := by
    rw [List.dropWhile_cons, if_neg (by decide)]
  rw [h3, ← h2, List.reverse_reverse]

/-- Claim C4 (amended): wrapping a valid JSON reply in a code fence carrying
the `json` language tag makes both rescuers produce exactly the result of the
unwrapped reply (for replies with no surrounding whitespace and a non-falsy
parse; the `content[7:-3]` slice of both sources only removes the fence
intact for a 4-character language tag, and a Python-falsy parse such as the
empty object is rejected by `app.py` in either form). -/
theorem claim_C4_fence_equiv (s : String) (v : Json)
    (hs : pyStrip s.toList = s.toList)
    (hv : jsonLoadsL s.toList = some v)
    (ht : v.falsy = false) :
    appParse ("```json\n" ++ s ++ "\n```") = appParse s ∧
    gqParseContent ("```json\n" ++ s ++ "\n```") = gqParseContent s := by
  have hF : ("```json\n" ++ s ++ "\n```").toList =
      '\x60' :: '\x60' :: '\x60' :: 'j' :: 's' :: 'o' :: 'n' :: '\n' ::
        (s.toList ++ ('\n' :: '\x60' :: '\x60' :: '\x60' :: [])) := rfl
  have hshape : ("```json\n" ++ s ++ "\n```").toList =
      '\x60' :: (('\x60' :: '\x60' :: 'j' :: 's' :: 'o' :: 'n' :: '\n' ::
        (s.toList ++ ('\n' :: '\x60' :: '\x60' :: []))) ++ ['\x60']) := by
    rw [hF]
    simp
  have hstripF : pyStrip ("```json\n" ++ s ++ "\n```").toList =
      ("```json\n" ++ s ++ "\n```").toList := by
    rw [hshape]
    exact pyStrip_fenced _
  have hsw : pyStartsWith ("```json\n" ++ s ++ "\n```").toList fenceMarker = true := by
    rw [hF]
    rfl
  have hdrop : ("```json\n" ++ s ++ "\n```").toList.drop 7 =
      '\n' :: (s.toList ++ ('\n' :: '\x60' :: '\x60' :: '\x60' :: [])) := by
    rw [hF]
    rfl
  have hlen : ("```json\n" ++ s ++ "\n```").toList.length - 3 - 7 =
      s.toList.length + 2 := by
    rw [hF]
    simp
  have htake : ('\n' :: (s.toList ++ ('\n' :: '\x60' :: '\x60' :: '\x60' :: []))).take
      (s.toList.length + 2) = '\n' :: (s.toList ++ ['\n']) := by
    rw [show s.toList.length + 2 = (s.toList.length + 1) + 1 from rfl,
      List.take_succ_cons]
    congr 1
    rw [List.take_append 1]
    rfl
  have hslice : pySliceMid ("```json\n" ++ s ++ "\n```").toList 7 3 =
      '\n' :: (s.toList ++ ['\n']) := by
    unfold pySliceMid
    rw [hdrop, hlen, htake]
  have hstrip2 : pyStrip ('\n' :: (s.toList ++ ['\n'])) = s.toList := by
    rw [pyStrip_cons_ws _ _ (by decide), pyStrip_append_ws _ _ (by decide), hs]
  have hm2 : appMethod2Clean ("```json\n" ++ s ++ "\n```").toList = s.toList := by
    unfold appMethod2Clean
    rw [if_pos hsw, hslice, hstrip2]
  have hnofenceS : pyStartsWith s.toList fenceMarker = false :=
    pyStartsWith_fence_of_parse _ _ hv
  have r1F : jsonLoadsL ("```json\n" ++ s ++ "\n```").toList = none := by
    rw [hF]
    exact jsonLoadsL_backtick _
  have hv' : jsonLoadsL s.data = some v := hv
  have r1F' : jsonLoadsL
      ('\x60' :: '\x60' :: '\x60' :: 'j' :: 's' :: 'o' :: 'n' :: '\n' ::
        (s.data ++ ('\n' :: '\x60' :: '\x60' :: '\x60' :: []))) = none :=
    jsonLoadsL_backtick _
  have hm2' : appMethod2Clean
      ('\x60' :: '\x60' :: '\x60' :: 'j' :: 's' :: 'o' :: 'n' :: '\n' ::
        (s.data ++ ('\n' :: '\x60' :: '\x60' :: '\x60' :: []))) = s.data := hm2
  have hrescF : appRescued (pyStrip ("```json\n" ++ s ++ "\n```").toList) = some v := by
    rw [hstripF]
    simp [appRescued, appAfterExtract, appAfterFence, appAfterDirect, r1F, r1F',
      hm2, hm2', hv, hv', pyFalsyOpt, ht]
  have hrescS : appRescued (pyStrip s.toList) = some v := by
    rw [hs]
    simp [appRescued, appAfterExtract, appAfterFence, appAfterDirect, hv, hv',
      pyFalsyOpt, ht]
  have hgqF : gqFenceClean (pyStrip ("```json\n" ++ s ++ "\n```").toList) = s.toList := by
    rw [hstripF]
    unfold gqFenceClean
    rw [if_pos hsw, hslice, hstrip2]
  have hgqS : gqFenceClean (pyStrip s.toList) = s.toList := by
    rw [hs]
    unfold gqFenceClean
    rw [if_neg (by rw [hnofenceS]; exact Bool.false_ne_true), if_neg (by rw [hnofenceS]; exact Bool.false_ne_true)]
  constructor
  · unfold appParse
    rw [hrescF, hrescS]
  · unfold gqParseContent gqParseChars
    rw [hgqF, hgqS]

/-- Counterexample to C4 as stated: a fenced reply *without* a language tag
around a valid nested object is not rescued by `app.py` at all (the
`content[7:-3]` slice eats three characters of the JSON), while the
unwrapped reply parses fine. -/
theorem claim_C4_counterexample :
    appParse "\x7b\"summary\":\x7b\"a\":1\x7d,\"sentiment\":\"positive\"\x7d" =
      Except.ok
        (Json.obj [("summary", Json.obj [("a", Json.num "1")]),
          ("sentiment", Json.str "positive")], false) ∧
    appParse "```\n\x7b\"summary\":\x7b\"a\":1\x7d,\"sentiment\":\"positive\"\x7d\n```" =
      Except.error ("Could not parse JSON from response: " ++
        "```\n\x7b\"summary\":\x7b\"a\":1\x7d,\"sentiment\":\"positive\"\x7d\n```") := by
  exact ⟨rfl, rfl⟩

/-- Witness for the amended C4 at a concrete reply. -/
theorem claim_C4_fence_equiv_witness :
    appParse ("```json\n" ++ "\x7b\"summary\": \"s\", \"sentiment\": \"ok\"\x7d" ++ "\n```") =
      appParse "\x7b\"summary\": \"s\", \"sentiment\": \"ok\"\x7d" ∧
    gqParseContent ("```json\n" ++ "\x7b\"summary\": \"s\", \"sentiment\": \"ok\"\x7d" ++ "\n```") =
      gqParseContent "\x7b\"summary\": \"s\", \"sentiment\": \"ok\"\x7d" := by
  exact claim_C4_fence_equiv "\x7b\"summary\": \"s\", \"sentiment\": \"ok\"\x7d"
    (Json.obj [("summary", Json.str "s"), ("sentiment", Json.str "ok")])
    (by decide) rfl rfl

/-! ### Positional characterization of the extraction regexes -/

theorem dropWhile_head_not (p : Char → Bool) (l : List Char) (c : Char)
    (t : List Char) (h : l.dropWhile p = c :: t) : p c = false := by
  induction l with
  | nil => simp at h
  | cons a l' ih =>
    rw [List.dropWhile_cons] at h
    by_cases ha : p a = true
    · rw [if_pos ha] at h
      exact ih h
    · rw [if_neg ha] at h
      injection h with h1 _
      subst h1
      simpa using ha

theorem narrowAt_spec (t m : List Char) (h : narrowAt t = some m) :
    ∃ seg rest, t = seg ++ '\x7d' :: rest ∧ m = '\x7b' :: (seg ++ ['\x7d']) ∧
      narrowSegOk seg = true ∧ ∀ c ∈ seg, c ≠ '\x7d' := by
  unfold narrowAt at h
  split at h
  · rename_i seg rest hspan
    split at h
    · rename_i hok
      simp only [Option.some.injEq] at h
      subst h
      rw [List.span_eq_take_drop] at hspan
      have h1 : t.takeWhile (fun c => c ≠ '\x7d') = seg := congrArg Prod.fst hspan
      have h2 : t.dropWhile (fun c => c ≠ '\x7d') = '\x7d' :: rest :=
        congrArg Prod.snd hspan
      refine ⟨seg, rest, ?_, rfl, hok, ?_⟩
      · conv_lhs => rw [← List.takeWhile_append_dropWhile (fun c => c ≠ '\x7d') t]
        rw [h1, h2]
      · intro c hcmem
        rw [← h1] at hcmem
        have := List.mem_takeWhile_imp hcmem
        simpa using this
    · exact Option.noConfusion h
  · exact Option.noConfusion h

theorem findNarrow_spec (l : List Char) :
    ∀ m, findNarrow l = some m →
      ∃ seg, m = '\x7b' :: (seg ++ ['\x7d']) ∧ narrowSegOk seg = true ∧
        ∀ c ∈ seg, c ≠ '\x7d' := by
  induction l with
  | nil => intro m h; simp [findNarrow] at h
  | cons c t ih =>
    intro m h
    unfold findNarrow at h
    by_cases hc : c = '\x7b'
    · rw [if_pos hc] at h
      cases hna : narrowAt t with
      | some m' =>
        rw [hna] at h
        injection h with h1
        subst h1
        obtain ⟨seg, rest, _, hm, hok, hmem⟩ := narrowAt_spec t m' hna
        exact ⟨seg, hm, hok, hmem⟩
      | none =>
        rw [hna] at h
        exact ih m h
    · rw [if_neg hc] at h
      exact ih m h

theorem findBroadApp_spec (l m : List Char) (h : findBroadApp l = some m) :
    ∃ pre mid suf, l = pre ++ '\x7b' :: (mid ++ '\x7d' :: suf) ∧
      m = '\x7b' :: (mid ++ ['\x7d']) ∧
      (∀ c ∈ pre, c ≠ '\x7b') ∧ (∀ c ∈ mid, c ≠ '\x7d') := by
  unfold findBroadApp at h
  split at h
  · rename_i t hdrop
    split at h
    · rename_i seg rest hspan
      simp only [Option.some.injEq] at h
      subst h
      rw [List.span_eq_take_drop] at hspan
      have h1 : t.takeWhile (fun c => c ≠ '\x7d') = seg := congrArg Prod.fst hspan
      have h2 : t.dropWhile (fun c => c ≠ '\x7d') = '\x7d' :: rest :=
        congrArg Prod.snd hspan
      refine ⟨l.takeWhile (fun c => c ≠ '\x7b'), seg, rest, ?_, rfl, ?_, ?_⟩
      · conv_lhs => rw [← List.takeWhile_append_dropWhile (fun c => c ≠ '\x7b') l]
        rw [hdrop]
        congr 1
        conv_lhs => rw [← List.takeWhile_append_dropWhile (fun c => c ≠ '\x7d') t]
        rw [h1, h2]
      · intro c hcmem
        have := List.mem_takeWhile_imp hcmem
        simpa using this
      · intro c hcmem
        rw [← h1] at hcmem
        have := List.mem_takeWhile_imp hcmem
        simpa using this
    · exact Option.noConfusion h
  · exact Option.noConfusion h

theorem findBroadGq_spec (l m : List Char) (h : findBroadGq l = some m) :
    ∃ pre mid suf, l = pre ++ '\x7b' :: (mid ++ '\x7d' :: suf) ∧
      m = '\x7b' :: (mid ++ ['\x7d']) ∧
      (∀ c ∈ pre, c ≠ '\x7b') ∧ (∀ c ∈ suf, c ≠ '\x7d') := by
  unfold findBroadGq at h
  split at h
  · rename_i t hdrop
    split at h
    · exact Option.noConfusion h
    · rename_i hkeep
      cases hk : t.reverse.dropWhile (fun c => c ≠ '\x7d') with
      | nil => exact absurd hk hkeep
      | cons k0 ktail =>
      rw [hk] at h
      simp only [Option.some.injEq] at h
      subst h
      have hk0 : k0 = '\x7d' := by
        have := dropWhile_head_not _ _ _ _ hk
        simpa using this
      subst hk0
      have hrev : t.reverse =
          t.reverse.takeWhile (fun c => c ≠ '\x7d') ++ ('\x7d' :: ktail) := by
        conv_lhs =>
          rw [← List.takeWhile_append_dropWhile (fun c => c ≠ '\x7d') t.reverse]
        rw [hk]
      have ht : t = ktail.reverse ++ '\x7d' ::
          (t.reverse.takeWhile (fun c => c ≠ '\x7d')).reverse := by
        have h' := congrArg List.reverse hrev
        rw [List.reverse_reverse] at h'
        conv_lhs => rw [h', List.reverse_append, List.reverse_cons,
          List.append_assoc]
        rfl
      refine ⟨l.takeWhile (fun c => c ≠ '\x7b'), ktail.reverse,
        (t.reverse.takeWhile (fun c => c ≠ '\x7d')).reverse, ?_, ?_, ?_, ?_⟩
      · conv_lhs => rw [← List.takeWhile_append_dropWhile (fun c => c ≠ '\x7b') l]
        rw [hdrop]
        congr 1
        rw [← ht]
      · simp
      · intro c hcmem
        have := List.mem_takeWhile_imp hcmem
        simpa using this
      · intro c hcmem
        rw [List.mem_reverse] at hcmem
        have := List.mem_takeWhile_imp hcmem
        simpa using this
  · exact Option.noConfusion h

/-- Claim C5 (amended): after direct parse and fence strip fail, `app.py`
tries the narrow `summary`/`sentiment` pattern first and only then the lazy
brace pattern — whose match runs from the first opening brace to the *first*
closing brace after it, not to the last closing brace of the text;
`groq_utils` has no narrow pattern and its single fallback is the greedy
pattern from the first opening brace to the *last* closing brace. -/
theorem claim_C5_extraction_order :
    (∀ (l : List Char) (m : List Char), findNarrow l = some m →
      appExtract l = some m) ∧
    (∀ l : List Char, findNarrow l = none → appExtract l = findBroadApp l) ∧
    (∀ (l m : List Char), findNarrow l = some m →
      ∃ seg, m = '\x7b' :: (seg ++ ['\x7d']) ∧ narrowSegOk seg = true ∧
        ∀ c ∈ seg, c ≠ '\x7d') ∧
    (∀ (l m : List Char), findBroadApp l = some m →
      ∃ pre mid suf, l = pre ++ '\x7b' :: (mid ++ '\x7d' :: suf) ∧
        m = '\x7b' :: (mid ++ ['\x7d']) ∧
        (∀ c ∈ pre, c ≠ '\x7b') ∧ (∀ c ∈ mid, c ≠ '\x7d')) ∧
    (∀ (l m : List Char), findBroadGq l = some m →
      ∃ pre mid suf, l = pre ++ '\x7b' :: (mid ++ '\x7d' :: suf) ∧
        m = '\x7b' :: (mid ++ ['\x7d']) ∧
        (∀ c ∈ pre, c ≠ '\x7b') ∧ (∀ c ∈ suf, c ≠ '\x7d')) ∧
    (∀ content : List Char, jsonLoadsL content = none →
      gqRescued content =
        (match findBroadGq content with
          | some m => jsonLoadsL m
          | none => none)) := by
  refine ⟨?_, ?_, ?_, ?_, ?_, ?_⟩
  · intro l m h
    unfold appExtract
    rw [h]
  · intro l h
    unfold appExtract
    rw [h]
  · exact fun l m h => findNarrow_spec l m h
  · exact findBroadApp_spec
  · exact findBroadGq_spec
  · intro content h
    unfold gqRescued
    rw [h]

/-- Counterexample to C5 as stated: on `x \x7b"a": 1\x7d \x7d y` (direct
parse, fence strip and the narrow pattern all fail), `app.py`'s fallback
extracts and parses the lazy substring `\x7b"a": 1\x7d` ending at the first
closing brace and goes on to field validation, while the substring delimited
by the outermost opening brace and the *last* closing brace —
`\x7b"a": 1\x7d \x7d` — is not valid JSON, so the claimed behaviour would
have been a parse failure. -/
theorem claim_C5_counterexample :
    findNarrow "x \x7b\"a\": 1\x7d \x7d y".toList = none ∧
    findBroadApp "x \x7b\"a\": 1\x7d \x7d y".toList =
      some "\x7b\"a\": 1\x7d".toList ∧
    findBroadGq "x \x7b\"a\": 1\x7d \x7d y".toList =
      some "\x7b\"a\": 1\x7d \x7d".toList ∧
    jsonLoadsL "\x7b\"a\": 1\x7d \x7d".toList = none ∧
    appParse "x \x7b\"a\": 1\x7d \x7d y" =
      Except.error ("Missing required fields in response: " ++
        pyStr (Json.obj [("a", Json.num "1")])) := by
  exact ⟨rfl, rfl, rfl, rfl, rfl⟩

/-- Witness for the amended C5 at concrete inputs: the narrow pattern wins
when it matches, the lazy fallback stops at the first closing brace, and the
greedy fallback reaches the last one. -/
theorem claim_C5_extraction_order_witness :
    appExtract "x \x7bu\x7d \x7b\"summary\" \"sentiment\"\x7d".toList =
      some "\x7b\"summary\" \"sentiment\"\x7d".toList ∧
    appExtract "a \x7bb\x7d c\x7d".toList = findBroadApp "a \x7bb\x7d c\x7d".toList ∧
    (∃ pre mid suf,
      "a \x7bb\x7d c\x7d".toList = pre ++ '\x7b' :: (mid ++ '\x7d' :: suf) ∧
      "\x7bb\x7d".toList = '\x7b' :: (mid ++ ['\x7d']) ∧
      (∀ c ∈ pre, c ≠ '\x7b') ∧ (∀ c ∈ mid, c ≠ '\x7d')) := by
  obtain ⟨h1, h2, h3, h4, h5, h6⟩ := claim_C5_extraction_order
  refine ⟨h1 _ _ rfl, h2 _ rfl, ?_⟩
  exact h4 "a \x7bb\x7d c\x7d".toList "\x7bb\x7d".toList rfl

end TranscriptService
